import Mathlib

/-!
Verification development for the fide-glicko rating engine.

The repository contains three variants of the rating-update engine:
* `part_000` — a C implementation of Glicko-2 over a hand-rolled hash table
  (namespace `C0` below);
* `part_002` — a C++ implementation of plain Glicko (no volatility), class
  `Glicko` (namespace `Glicko` below);
* `part_003` — a C++ implementation of Glicko-2, class `Glicko2`
  (namespace `Glicko2` below).

Real (`double`) arithmetic is embedded as `ℝ`; keyed registries
(`std::map<int, Player>` or the C hash table) are embedded as
`Int → Option Player`; per-player game lists are association lists.
While loops with no static bound (the volatility solver's bracket search and
regula-falsi loop) are embedded as big-step relations.
-/

noncomputable section

/-- Write into a keyed registry (`players[id] = v`). -/
def mset {α : Type} (m : Int → Option α) (k : Int) (v : α) : Int → Option α :=
  fun j => if j = k then some v else m j

namespace C0

/-- `TAU` of part_000, `#define TAU 0.2`. -/
def TAU : ℝ := 0.2

/-- part_000 `f` (lines 99–102):
`(ex * (delta*delta - v - ex)) / (2 * pow(v + ex, 2)) - (x - A) / pow(TAU, 2)`
where `ex = exp(x)`.  Note: no `phi*phi` term appears. -/
def f (x delta v A : ℝ) : ℝ :=
  (Real.exp x * (delta * delta - v - Real.exp x)) / (2 * (v + Real.exp x) ^ 2)
    - (x - A) / TAU ^ 2

end C0

namespace Glicko2

/-- part_003 `Glicko2::f` (lines 244–247):
`exp(x) * (delta*delta - deviation*deviation - v - exp(x)) /
 (2 * pow(deviation*deviation + v + exp(x), 2)) - (x - a) / (tau * tau)`. -/
def f (x a deviation v delta tau : ℝ) : ℝ :=
  Real.exp x * (delta * delta - deviation * deviation - v - Real.exp x) /
      (2 * (deviation * deviation + v + Real.exp x) ^ 2)
    - (x - a) / (tau * tau)

end Glicko2

namespace C0

/-- Big-step relation for the part_000 bracket-search loop (lines 141–145):
`int k = 1; while (f(a - k * TAU, delta, v, A) < 0) { k++; } B = a - k * TAU;`
with `A = a`.  `KSearch delta v a k kr` holds when the loop, entered with
counter `k`, exits with counter `kr`. -/
inductive KSearch (delta v a : ℝ) : ℕ → ℕ → Prop
  | exit (k : ℕ) : ¬ f (a - k * TAU) delta v a < 0 → KSearch delta v a k k
  | loop (k kr : ℕ) : f (a - k * TAU) delta v a < 0 → KSearch delta v a (k + 1) kr →
      KSearch delta v a k kr

/-- part_000 bracket initialization (lines 134–146): `A = a` and
`B = log(delta² - phi² - v)` when `delta² > phi² + v`, else `B = a - k*TAU`
with `k` produced by the search loop started at `k = 1`. -/
def BracketInit (delta v phi a B : ℝ) : Prop :=
  (delta ^ 2 > phi ^ 2 + v ∧ B = Real.log (delta ^ 2 - phi ^ 2 - v)) ∨
  (¬ delta ^ 2 > phi ^ 2 + v ∧ ∃ k : ℕ, KSearch delta v a 1 k ∧ B = a - k * TAU)

end C0

/-- State of the regula-falsi loops: the bracket endpoints `A`, `B` and the
retained objective values `fA = f(A)`, `fB = f(B)`. -/
structure RFState where
  A : ℝ
  B : ℝ
  fA : ℝ
  fB : ℝ

/-- The candidate of part_000 line 153 and part_003 line 262:
`C = A + (A - B) * fA / (fB - fA)`. -/
def candidateC (s : RFState) : ℝ := s.A + (s.A - s.B) * s.fA / (s.fB - s.fA)

/-- Modelled from the spec (§4.3 step 2): the secant interpolant of
`(A, f(A))` and `(B, f(B))`, written as `(A·fB − B·fA)/(fB − fA)`. -/
def specSecant (s : RFState) : ℝ := (s.A * s.fB - s.B * s.fA) / (s.fB - s.fA)

namespace C0

/-- One iteration of the part_000 solver loop (lines 152–164):
`C = A + (A-B)*fa/(fb-fa); fc = f(C);`
`if (fc*fb < 0) { A = B; fa = fb; } else { fa /= 2; } B = C; fb = fc;`. -/
def illinoisStep (F : ℝ → ℝ) (s : RFState) : RFState :=
  if F (candidateC s) * s.fB < 0 then ⟨s.B, candidateC s, s.fB, F (candidateC s)⟩
  else ⟨s.A, candidateC s, s.fA / 2, F (candidateC s)⟩

/-- part_000 line 166: the raw solver result `new_volatility = exp(A / 2.0)`
before any check or clamp. -/
def raw_volatility (A : ℝ) : ℝ := Real.exp (A / 2)

/-- part_000 lines 187–189: `if (new_volatility > 2.8) new_volatility = 2.8;`
(reached only when the function has not already returned at line 172). -/
def clamped_volatility (A : ℝ) : ℝ :=
  if raw_volatility A > 2.8 then 2.8 else raw_volatility A

/-- part_000 lines 190–191, computed from the clamped volatility:
`phi_star = sqrt(pow(phi, 2.0) + pow(new_volatility, 2.0));`
`new_phi = 1.0 / sqrt(1.0 / pow(phi_star, 2.0) + 1.0 / v);`. -/
def raw_new_phi (phi v A : ℝ) : ℝ :=
  1 / Real.sqrt (1 / Real.sqrt (phi ^ 2 + clamped_volatility A ^ 2) ^ 2 + 1 / v)

/-- part_000 lines 212–214: `if (new_phi > 2.9) new_phi = 2.9;` (reached only
when the function has not already returned at line 197). -/
def clamped_phi (phi v A : ℝ) : ℝ :=
  if raw_new_phi phi v A > 2.9 then 2.9 else raw_new_phi phi v A

/-- The fields written by part_000 `glicko2_update` lines 217–219: the staged
`new_rating`/`new_rd` (display scale) and the in-place `volatility`. -/
structure CommitOut where
  volatility : ℝ
  phiInternal : ℝ
  new_rating : ℝ
  new_rd : ℝ

/-- part_000 commit phase after the solver (lines 166–219), with its two
early returns made explicit.  Each extreme-case check opens
`extreme_cases.log` for appending; whether each `fopen` succeeds is
environment state, passed in as `log1Ok`/`log2Ok`.
* Lines 168–173: if `new_volatility > 1.0` and the log cannot be opened,
  `return;` — no clamp is applied and none of the player's fields are
  written (`none`; the log write itself, lines 175–184, is I/O with no
  effect on the computation).
* Lines 193–198: likewise if `new_phi < 0.1 || new_phi > 2.8` and the log
  cannot be opened.
Otherwise the clamped values are committed:
`new_rating = new_mu * 173.7178 + 1500.0`, `new_rd = new_phi * 173.7178`,
`volatility = new_volatility` with `new_mu = mu + pow(new_phi, 2.0) * delta_sum`. -/
def commit (log1Ok log2Ok : Bool) (mu phi v delta_sum A : ℝ) : Option CommitOut :=
  if raw_volatility A > 1.0 ∧ log1Ok = false then none
  else if (raw_new_phi phi v A < 0.1 ∨ raw_new_phi phi v A > 2.8) ∧ log2Ok = false then none
  else some ⟨clamped_volatility A, clamped_phi phi v A,
    (mu + clamped_phi phi v A ^ 2 * delta_sum) * 173.7178 + 1500.0,
    clamped_phi phi v A * 173.7178⟩

end C0

namespace Glicko2

/-- One iteration of the part_003 solver loop (lines 261–271):
`C = A + (A - B) * f_A / (f_B - f_A); f_C = f(C);`
`if (f_C < 0.0) { B = C; f_B = f_C; } else { A = C; f_A = f_C; }`.
Note: no halving of a retained value occurs on either branch. -/
def rfStep (F : ℝ → ℝ) (s : RFState) : RFState :=
  if F (candidateC s) < 0 then ⟨s.A, candidateC s, s.fA, F (candidateC s)⟩
  else ⟨candidateC s, s.B, F (candidateC s), s.fB⟩

/-- Big-step relation for the part_003 solver loop
`while (std::abs(B - A) > epsilon) { ... }` followed by
`return std::exp(A/2);` (lines 261–272). -/
inductive Iterate (F : ℝ → ℝ) (eps : ℝ) : RFState → ℝ → Prop
  | done (s : RFState) : ¬ |s.B - s.A| > eps → Iterate F eps s (Real.exp (s.A / 2))
  | step (s : RFState) (r : ℝ) : |s.B - s.A| > eps → Iterate F eps (rfStep F s) r →
      Iterate F eps s r

/-- Big-step relation for the part_003 bracket-search loop (lines 253–257):
`int k = 1; while (f(A - k * tau, A, deviation, v, delta) < 0.0) { ++k; }
B = A - k * tau;`. -/
inductive KSearch (A deviation v delta tau : ℝ) : ℕ → ℕ → Prop
  | exit (k : ℕ) : ¬ f (A - k * tau) A deviation v delta tau < 0 →
      KSearch A deviation v delta tau k k
  | loop (k kr : ℕ) : f (A - k * tau) A deviation v delta tau < 0 →
      KSearch A deviation v delta tau (k + 1) kr → KSearch A deviation v delta tau k kr

/-- `Glicko2::get_new_volatility` (lines 249–273) as a relation between its
arguments and its return value: `A = 2*log(volatility)`,
`B = log(delta*delta - deviation*deviation - v)`, replaced by the bracket
search result `A - k*tau` when `B <= 0.0`, then the regula-falsi loop is run
from `(A, B, f(A), f(B))` and `exp(A/2)` of the final state is returned. -/
def GetNewVolatility (deviation volatility v delta tau eps result : ℝ) : Prop :=
  ∃ B : ℝ,
    ((Real.log (delta * delta - deviation * deviation - v) ≤ 0 ∧
        ∃ k : ℕ, KSearch (2 * Real.log volatility) deviation v delta tau 1 k ∧
          B = 2 * Real.log volatility - k * tau) ∨
      (¬ Real.log (delta * delta - deviation * deviation - v) ≤ 0 ∧
        B = Real.log (delta * delta - deviation * deviation - v))) ∧
    Iterate (fun x => f x (2 * Real.log volatility) deviation v delta tau) eps
      ⟨2 * Real.log volatility, B,
        f (2 * Real.log volatility) (2 * Real.log volatility) deviation v delta tau,
        f B (2 * Real.log volatility) deviation v delta tau⟩ result

end Glicko2

/-- Modelled from the spec/claim C5: one iteration of the Illinois-corrected
solver as the spec states it — the candidate is the secant interpolant of
`(A, f(A))` and `(B, f(B))`; when `f(C)` and the retained endpoint's value
`f(B)` have opposite sign that endpoint is replaced normally, and when they
have the same sign the retained value is halved. -/
def illinoisSpecStep (F : ℝ → ℝ) (s : RFState) : RFState :=
  if F (specSecant s) * s.fB < 0 then ⟨s.B, specSecant s, s.fB, F (specSecant s)⟩
  else ⟨s.A, specSecant s, s.fA / 2, F (specSecant s)⟩

/-- Modelled from the spec (§4.3): the claimed objective
`f(x) = [exp(x)·(delta² − phi² − v − exp(x))] / [2·(phi² + v + exp(x))²] − (x − a)/tau²`. -/
def fSpec (x delta phi v a tau : ℝ) : ℝ :=
  (Real.exp x * (delta ^ 2 - phi ^ 2 - v - Real.exp x)) /
      (2 * (phi ^ 2 + v + Real.exp x) ^ 2)
    - (x - a) / tau ^ 2

/-- Modelled from the spec/claim C4: `B = ln(delta² − phi² − v)` exactly when
`delta² > phi² + v`; otherwise `B = a − k·tau` where `k` is the smallest
positive integer such that `f(a − k·tau) < 0`. -/
def BracketSpecC4 (delta v phi a B : ℝ) : Prop :=
  (delta ^ 2 > phi ^ 2 + v ∧ B = Real.log (delta ^ 2 - phi ^ 2 - v)) ∨
  (¬ delta ^ 2 > phi ^ 2 + v ∧ ∃ k : ℕ, 1 ≤ k ∧
    C0.f (a - k * C0.TAU) delta v a < 0 ∧
    (∀ j : ℕ, 1 ≤ j → j < k → ¬ C0.f (a - j * C0.TAU) delta v a < 0) ∧
    B = a - k * C0.TAU)

/-- `std::map` insertion used by `get_player_games` in part_002 (lines
227–230) and part_003 (lines 217–220): `player_games[k].emplace_back(e)` —
append `e` to the list at key `k`, materializing an empty list first when
the key is absent. -/
def addGame (m : List (Int × List (Int × ℝ))) (k : Int) (e : Int × ℝ) :
    List (Int × List (Int × ℝ)) :=
  match m with
  | [] => [(k, [e])]
  | (k', l) :: rest => if k = k' then (k', l ++ [e]) :: rest else (k', l) :: addGame rest k e

/-- `get_player_games` of part_002 (lines 199–231) and part_003 (lines
188–221): each record `(player_1, player_2, outcome)` registers
`(player_2, outcome)` under `player_1` and `(player_1, 1.0 - outcome)` under
`player_2`.  (Keys are kept in first-insertion order rather than the sorted
order of `std::map`; no claim below depends on key order.) -/
def get_player_games (games : List (Int × Int × ℝ)) : List (Int × List (Int × ℝ)) :=
  games.foldl (fun m rec => addGame (addGame m rec.1 (rec.2.1, rec.2.2)) rec.2.1 (rec.1, 1 - rec.2.2)) []

/-- `get_player_ids` of part_002 (lines 235–242) and part_003 (lines
226–232): the keys of the per-player game index. -/
def get_player_ids (player_games : List (Int × List (Int × ℝ))) : List Int :=
  player_games.map (fun q => q.1)

/-- `player_games.at(player_id)`: association-list lookup of a player's game
entries (total, returning `[]` off the key set; in the source the argument is
always a key). -/
def lookupGames (idx : List (Int × List (Int × ℝ))) (pid : Int) : List (Int × ℝ) :=
  match idx with
  | [] => []
  | (k, l) :: rest => if pid = k then l else lookupGames rest pid

/-- In-place keyed update loop `for (pid : ids) { players[pid] = F(players[pid]) }`
where `players[pid]` value-initializes a default on a missing key. -/
def foldUpd {α : Type} (F : Option α → α) (m : Int → Option α) (ids : List Int) :
    Int → Option α :=
  ids.foldl (fun acc k => mset acc k (F (acc k))) m

namespace Glicko2

/-- part_003 `Glicko2::Player` (glicko2.h lines 10–15). -/
structure Player where
  rating : ℝ
  deviation : ℝ
  volatility : ℝ
  last_month_played : Int

/-- The value-initialized `Player` materialized by `players[id]` on a missing
key (`std::map::operator[]`): all fields zero. -/
def defaultPlayer : Player := ⟨0, 0, 0, 0⟩

/-- Body of part_003 `update_player_ratings_and_deviations` (lines 237–240):
`rating = (rating - 1500.0) / 173.7178;`
`deviation = sqrt(pow(deviation / 173.7178, 2) +
  (month - last_month_played - 1) * volatility * volatility);`
`last_month_played = month;`. -/
def decayPlayer (p : Player) (month : Int) : Player :=
  ⟨(p.rating - 1500.0) / 173.7178,
    Real.sqrt ((p.deviation / 173.7178) ^ 2 +
      ((month : ℝ) - (p.last_month_played : ℝ) - 1) * p.volatility * p.volatility),
    p.volatility, month⟩

/-- part_003 `update_player_ratings_and_deviations` (lines 234–242): the
in-place decay pass over `player_ids`. -/
def update_player_ratings_and_deviations (m : Int → Option Player) (ids : List Int)
    (month : Int) : Int → Option Player :=
  foldUpd (fun o => decayPlayer (o.getD defaultPlayer) month) m ids

/-- part_003 `binary_cross_entropy` (lines 276–278):
`-outcome * log(expected_score) - (1.0 - outcome) * log(1.0 - expected_score)`. -/
def binary_cross_entropy (expected_score outcome : ℝ) : ℝ :=
  -outcome * Real.log expected_score - (1 - outcome) * Real.log (1 - expected_score)

/-- The per-game accumulation loop of part_003 `update_player_ratings`
(lines 288–298), returning `(v_sum, g_sum, loss)`.  The source looks up
`players.find(opponent_id)` and then never reads the result: the registry
argument `m` is received (and the lookup performed) but `opponent_rating`
and `opponent_deviation` always keep the defaults `DEFAULT_RATING` (1500.0)
and `starting_deviation`. -/
def aggregateLoop (m : Int → Option Player) (starting_deviation rating : ℝ) :
    ℝ × ℝ × ℝ → List (Int × ℝ) → ℝ × ℝ × ℝ
  | acc, [] => acc
  | acc, e :: rest =>
      aggregateLoop m starting_deviation rating
        (let opponent_it := m e.1
         let opponent_rating : ℝ := 1500.0
         let opponent_deviation : ℝ := starting_deviation
         let g := 1 / Real.sqrt (1 + 3 * (opponent_deviation / 173.7178 / Real.pi) ^ 2)
         let expected_score :=
           1 / (1 + Real.exp (-g * (rating - opponent_rating) * 173.7178 / 400))
         (acc.1 + g ^ 2 * expected_score * (1 - expected_score),
           acc.2.1 + g * (e.2 - expected_score),
           acc.2.2 + binary_cross_entropy expected_score e.2))
        rest

/-- The full accumulation of part_003 lines 287–298, starting from
`v_sum = 0.0, g_sum = 0.0` (and loss `0.0`). -/
def aggregate (m : Int → Option Player) (starting_deviation rating : ℝ)
    (entries : List (Int × ℝ)) : ℝ × ℝ × ℝ :=
  aggregateLoop m starting_deviation rating (0, 0, 0) entries

/-- The per-entry variance summand `g² · E · (1 - E)` of part_003 line 295;
it does not depend on the entry because the opponent values are fixed at the
defaults (see `aggregate`). -/
def vterm (starting_deviation rating : ℝ) : ℝ :=
  (1 / Real.sqrt (1 + 3 * (starting_deviation / 173.7178 / Real.pi) ^ 2)) ^ 2 *
    (1 / (1 + Real.exp (-(1 / Real.sqrt (1 + 3 * (starting_deviation / 173.7178 / Real.pi) ^ 2)) *
      (rating - 1500.0) * 173.7178 / 400))) *
    (1 - 1 / (1 + Real.exp (-(1 / Real.sqrt (1 + 3 * (starting_deviation / 173.7178 / Real.pi) ^ 2)) *
      (rating - 1500.0) * 173.7178 / 400)))

/-- part_003 line 300: `v = 1.0 / v_sum` for the player's entry list. -/
def vOf (m : Int → Option Player) (sd : ℝ) (idx : List (Int × List (Int × ℝ)))
    (pid : Int) : ℝ :=
  1 / (aggregate m sd ((m pid).getD defaultPlayer).rating (lookupGames idx pid)).1

/-- part_003 `g_sum` accumulated for the player's entry list. -/
def gsumOf (m : Int → Option Player) (sd : ℝ) (idx : List (Int × List (Int × ℝ)))
    (pid : Int) : ℝ :=
  (aggregate m sd ((m pid).getD defaultPlayer).rating (lookupGames idx pid)).2.1

/-- part_003 per-player loss contribution accumulated for the entry list. -/
def lossOf (m : Int → Option Player) (sd : ℝ) (idx : List (Int × List (Int × ℝ)))
    (pid : Int) : ℝ :=
  (aggregate m sd ((m pid).getD defaultPlayer).rating (lookupGames idx pid)).2.2

/-- part_003 lines 302–306, the in-place commit of one player's update given
the solver output `nv`:
`player.volatility = nv;`
`new_deviation = 1 / sqrt(1 / pow(deviation, 2) + 1 / pow(nv, 2));`
`player.deviation = 1 / sqrt(1 / (new_deviation * new_deviation + 1 / v));`
`player.rating += new_deviation * new_deviation * g_sum;`. -/
def commitPlayer (m : Int → Option Player) (pid : Int) (v g_sum nv : ℝ) :
    Int → Option Player :=
  let player := (m pid).getD defaultPlayer
  let new_deviation := 1 / Real.sqrt (1 / player.deviation ^ 2 + 1 / nv ^ 2)
  mset m pid
    ⟨player.rating + new_deviation * new_deviation * g_sum,
      1 / Real.sqrt (1 / (new_deviation * new_deviation + 1 / v)),
      nv, player.last_month_played⟩

/-- Big-step relation for the player loop of part_003
`update_player_ratings` (lines 284–307): each player in turn is aggregated
against the current registry, solved (`GetNewVolatility`), and committed in
place; the per-entry cross-entropy losses are summed into `loss`. -/
inductive UpdatePlayers (sd tau eps : ℝ) (idx : List (Int × List (Int × ℝ))) :
    (Int → Option Player) → List Int → ℝ → (Int → Option Player) → ℝ → Prop
  | nil (m : Int → Option Player) (loss : ℝ) : UpdatePlayers sd tau eps idx m [] loss m loss
  | cons (m : Int → Option Player) (pid : Int) (rest : List Int) (loss nv : ℝ)
      (mFin : Int → Option Player) (lossFin : ℝ) :
      GetNewVolatility ((m pid).getD defaultPlayer).deviation
        ((m pid).getD defaultPlayer).volatility
        (vOf m sd idx pid) (vOf m sd idx pid * gsumOf m sd idx pid) tau eps nv →
      UpdatePlayers sd tau eps idx
        (commitPlayer m pid (vOf m sd idx pid) (gsumOf m sd idx pid) nv) rest
        (loss + lossOf m sd idx pid) mFin lossFin →
      UpdatePlayers sd tau eps idx m (pid :: rest) loss mFin lossFin

/-- part_003 `Glicko2::update_ratings` (lines 313–327) as a relation: build
the game index, collect its keys, decay those players, run the player loop,
and return the summed loss divided by `2 * player_ids.size()` (line 309). -/
def UpdateRatings (sd tau eps : ℝ) (m : Int → Option Player)
    (games : List (Int × Int × ℝ)) (month : Int)
    (mFin : Int → Option Player) (avg : ℝ) : Prop :=
  ∃ lossSum : ℝ,
    UpdatePlayers sd tau eps (get_player_games games)
      (update_player_ratings_and_deviations m (get_player_ids (get_player_games games)) month)
      (get_player_ids (get_player_games games)) 0 mFin lossSum ∧
    avg = lossSum / (2 * (get_player_ids (get_player_games games)).length)

end Glicko2

namespace Glicko

/-- part_002 `Glicko::Player` (glicko.h lines 11–15): no volatility field. -/
structure Player where
  rating : ℝ
  deviation : ℝ
  last_month_played : Int

/-- The value-initialized `Player` materialized by `players[id]` on a missing
key: all fields zero. -/
def defaultPlayer : Player := ⟨0, 0, 0⟩

/-- part_002 line 24: `const double Q = std::log(10) / 400;`. -/
def Q : ℝ := Real.log 10 / 400

/-- part_002 `update_player_deviations` body (lines 247–249):
`deviation = sqrt(deviation * deviation + c * c); last_month_played = month;`. -/
def decayPlayer (c : ℝ) (p : Player) (month : Int) : Player :=
  ⟨p.rating, Real.sqrt (p.deviation * p.deviation + c * c), month⟩

/-- part_002 `update_player_deviations` (lines 244–251). -/
def update_player_deviations (c : ℝ) (m : Int → Option Player) (ids : List Int)
    (month : Int) : Int → Option Player :=
  foldUpd (fun o => decayPlayer c (o.getD defaultPlayer) month) m ids

/-- part_002 `binary_cross_entropy` (lines 253–257), including the clamp of
the prediction into `[1e-15, 1 - 1e-15]`. -/
def binary_cross_entropy (pred actual : ℝ) : ℝ :=
  -(actual * Real.log (max (min pred (1 - 1e-15)) 1e-15) +
    (1 - actual) * Real.log (1 - max (min pred (1 - 1e-15)) 1e-15))

/-- part_002 lines 286–293: opponent strength with default-on-miss —
`(DEFAULT_RATING, starting_deviation)` when the id is absent, the stored
(current) rating and deviation when present. -/
def opponentOf (starting_deviation : ℝ) (m : Int → Option Player) (oid : Int) : ℝ × ℝ :=
  match m oid with
  | some p => (p.rating, p.deviation)
  | none => (1500.0, starting_deviation)

/-- part_002 line 295: `g = 1 / sqrt(1 + 3 * pow(Q, 2) * pow(opponent_deviation, 2) / (M_PI * M_PI))`. -/
def g (opponent_deviation : ℝ) : ℝ :=
  1 / Real.sqrt (1 + 3 * Q ^ 2 * opponent_deviation ^ 2 / (Real.pi * Real.pi))

/-- part_002 line 298: `E = 1 / (1 + exp(-g * (player.rating - opponent_rating) / 400.0))`. -/
def E (gval rating opponent_rating : ℝ) : ℝ :=
  1 / (1 + Real.exp (-gval * (rating - opponent_rating) / 400))

/-- One iteration of the player loop of part_002 `update_player_ratings`
(lines 278–308).  `auto &player = players[player_id]` aliases the live map,
so the new rating and deviation are written in place (lines 305–306) and are
visible to later iterations:
`d = 1 / pow(d, 2);`
`rating += Q / (1 / pow(deviation, 2) + d) * sum;`
`deviation = sqrt(1 / pow(deviation, 2) + d);`. -/
def update_one (sd : ℝ) (idx : List (Int × List (Int × ℝ))) (m : Int → Option Player)
    (pid : Int) : Int → Option Player :=
  let player := (m pid).getD defaultPlayer
  let acc := (lookupGames idx pid).foldl
    (fun (a : ℝ × ℝ) e =>
      let orec := opponentOf sd m e.1
      let gv := g orec.2
      let Ev := E gv player.rating orec.1
      (a.1 + gv * (e.2 - Ev), a.2 + gv ^ 2 * Ev * (1 - Ev)))
    (0, 0)
  mset m pid
    ⟨player.rating + Q / (1 / player.deviation ^ 2 + 1 / acc.2 ^ 2) * acc.1,
      Real.sqrt (1 / player.deviation ^ 2 + 1 / acc.2 ^ 2),
      player.last_month_played⟩

/-- part_002 `update_player_ratings` (lines 259–319): the player loop
threading the live registry, paired with the loss accumulator
`total_loss`, which is initialized to `0.0` and never added to inside the
loop (no statement in the loop body mentions it). -/
def update_player_ratings (sd : ℝ) (idx : List (Int × List (Int × ℝ)))
    (m : Int → Option Player) (ids : List Int) : (Int → Option Player) × ℝ :=
  ids.foldl (fun acc pid => (update_one sd idx acc.1 pid, acc.2)) (m, 0.0)

/-- part_002 line 311: `average_loss = total_loss / (2 * player_ids.size())`,
the value returned by `update_player_ratings` and `update_ratings`. -/
def average_loss (sd : ℝ) (idx : List (Int × List (Int × ℝ)))
    (m : Int → Option Player) (ids : List Int) : ℝ :=
  (update_player_ratings sd idx m ids).2 / (2 * ids.length)

end Glicko

/-- Concrete one-player registry used for the C8 no-game scenario. -/
def c8reg : Int → Option Glicko2.Player :=
  fun i => if i = 1 then some ⟨1500, 350, 0.06, 0⟩ else none

/-- Concrete two-player registry for the C9 loss scenario. -/
def c9reg : Int → Option Glicko.Player :=
  fun i => if i = 1 then some ⟨1500, 350, 0⟩ else if i = 2 then some ⟨1500, 350, 0⟩ else none

/-- Concrete two-player registry for the C1 order-dependence scenario: both
players rated 1500 with deviation 1. -/
def c1reg : Int → Option Glicko.Player :=
  fun i => if i = 1 then some ⟨1500, 1, 0⟩ else if i = 2 then some ⟨1500, 1, 0⟩ else none

/-- The game index of the single drawn game `(1, 2, 0.5)`. -/
def c1idx : List (Int × List (Int × ℝ)) := get_player_games [(1, 2, 0.5)]

/-- C3 counterexample: with `x = 0`, `delta = 2`, `v = 1`, `a = 0` and the
player's squared deviation `phi = 1`, the part_000 objective evaluates to
`1/4` while the spec's formula evaluates to `1/18`: the part_000 objective
is not the claimed function of the player's state. -/
theorem c3_counterexample : C0.f 0 2 1 0 ≠ fSpec 0 2 1 1 0 C0.TAU := by
  unfold C0.f fSpec C0.TAU
  rw [Real.exp_zero]
  norm_num

/-- C3 (amended): the part_003 objective `Glicko2::f` equals the spec's
formula (with `phi` the player's deviation and `a = ln(sigma²)`) for all real
arguments; the part_000 objective instead equals the spec's formula with
`phi` replaced by `0`, i.e. it omits the `phi²` term from both the numerator
and the squared denominator. -/
theorem c3_amended (x a deviation v delta tau : ℝ) :
    Glicko2.f x a deviation v delta tau = fSpec x delta deviation v a tau ∧
    C0.f x delta v a = fSpec x delta 0 v a C0.TAU := by
  constructor
  · unfold Glicko2.f fSpec
    ring_nf
  · unfold C0.f fSpec
    ring_nf

/-- With `delta = 0`, `v = 1`, `a = 0`, the part_000 objective is strictly
positive at every search point `a - k·TAU` with `k ≥ 1`: the linear term
contributes `5k ≥ 5` while the exponential term stays above `-1/2`. -/
lemma c0_f_pos_at (k : ℕ) (hk : 1 ≤ k) : 0 < C0.f (0 - (k : ℝ) * C0.TAU) 0 1 0 := by
  have hk1 : (1 : ℝ) ≤ (k : ℝ) := by exact_mod_cast hk
  unfold C0.f
  set t := Real.exp (0 - (k : ℝ) * C0.TAU) with htdef
  have htpos : 0 < t := Real.exp_pos _
  have h1t : (0 : ℝ) < 1 + t := by linarith
  have hfrac : t * (0 * 0 - 1 - t) / (2 * (1 + t) ^ 2) = -(t / (2 * (1 + t))) := by
    have hne : (1 : ℝ) + t ≠ 0 := ne_of_gt h1t
    field_simp
    ring
  have hsecond : (0 - (k : ℝ) * C0.TAU - 0) / C0.TAU ^ 2 = -(5 * (k : ℝ)) := by
    unfold C0.TAU
    norm_num
    ring
  rw [hfrac, hsecond]
  have hlt : t / (2 * (1 + t)) < 1 / 2 := by
    rw [div_lt_iff₀ (by linarith)]
    linarith
  linarith

/-- The part_000 bracket-search loop exits at the least counter value at
which `f` is no longer negative: every counter strictly between the entry
value and the exit value fails the exit test. -/
lemma ksearch_least (delta v a : ℝ) (k0 kr : ℕ) (h : C0.KSearch delta v a k0 kr) :
    k0 ≤ kr ∧ ¬ C0.f (a - kr * C0.TAU) delta v a < 0 ∧
      ∀ j : ℕ, k0 ≤ j → j < kr → C0.f (a - j * C0.TAU) delta v a < 0 := by
  induction h with
  | exit k hk =>
      exact ⟨le_rfl, hk, fun j hj1 hj2 => absurd (lt_of_le_of_lt hj1 hj2) (lt_irrefl _)⟩
  | loop k kr hneg hrec ih =>
      refine ⟨le_trans (Nat.le_succ k) ih.1, ih.2.1, fun j hj1 hj2 => ?_⟩
      rcases Nat.eq_or_lt_of_le hj1 with hje | hjlt
      · rw [← hje]; exact hneg
      · exact ih.2.2 j hjlt hj2

/-- At `delta = 0`, `v = 1`, `phi = 1`, `a = 0` the part_000 code takes the
search branch and exits immediately with `k = 1`, giving `B = -1/5`. -/
lemma c4_instance : C0.BracketInit 0 1 1 0 (-(1/5 : ℝ)) := by
  right
  refine ⟨by norm_num, 1, C0.KSearch.exit 1 ?_, ?_⟩
  · exact not_lt.mpr (le_of_lt (by exact_mod_cast c0_f_pos_at 1 le_rfl))
  · unfold C0.TAU
    norm_num

/-- C4 counterexample: at `delta = 0`, `v = 1`, `phi = 1`, `a = 0` the
part_000 code's bracket search exits immediately with `k = 1` (because
`f(a - TAU) > 0`), committing `B = -1/5`, while no positive integer `k`
satisfies the claim's requirement `f(a - k·TAU) < 0`: the claimed
characterization of `B` holds for no value at this input. -/
theorem c4_counterexample :
    C0.BracketInit 0 1 1 0 (-(1/5 : ℝ)) ∧ ¬ ∃ B : ℝ, BracketSpecC4 0 1 1 0 B := by
  refine ⟨c4_instance, ?_⟩
  rintro ⟨B, hB | hB⟩
  · have : ¬ ((0 : ℝ) ^ 2 > 1 ^ 2 + 1) := by norm_num
    exact this hB.1
  · obtain ⟨-, k, hk1, hneg, -, -⟩ := hB
    exact absurd hneg (not_lt.mpr (le_of_lt (c0_f_pos_at k hk1)))

/-- C4 (amended): at the start of each part_000 volatility solve, `A = a`
and `B = ln(delta² − phi² − v)` when `delta² > phi² + v`; otherwise
`B = a − k·TAU` where `k` is the smallest positive integer such that
`f(a − k·TAU) ≥ 0` (the loop runs while `f < 0`, so every smaller positive
counter has `f < 0` and the exit counter does not). -/
theorem c4_amended (delta v phi a B : ℝ) (h : C0.BracketInit delta v phi a B) :
    (delta ^ 2 > phi ^ 2 + v → B = Real.log (delta ^ 2 - phi ^ 2 - v)) ∧
    (¬ delta ^ 2 > phi ^ 2 + v → ∃ k : ℕ, 1 ≤ k ∧
      ¬ C0.f (a - k * C0.TAU) delta v a < 0 ∧
      (∀ j : ℕ, 1 ≤ j → j < k → C0.f (a - j * C0.TAU) delta v a < 0) ∧
      B = a - k * C0.TAU) := by
  rcases h with ⟨hc, hB⟩ | ⟨hnc, k, hks, hB⟩
  · exact ⟨fun _ => hB, fun hn => absurd hc hn⟩
  · refine ⟨fun hcc => absurd hcc hnc, fun _ => ⟨k, ?_⟩⟩
    obtain ⟨hk1, hexit, hleast⟩ := ksearch_least delta v a 1 k hks
    exact ⟨hk1, hexit, hleast, hB⟩

/-- C4 witness: the amended characterization instantiated at the concrete
input of the counterexample, with both hypotheses discharged. -/
theorem c4_witness : ∃ k : ℕ, 1 ≤ k ∧ ¬ C0.f (0 - k * C0.TAU) 0 1 0 < 0 ∧
    (∀ j : ℕ, 1 ≤ j → j < k → C0.f (0 - j * C0.TAU) 0 1 0 < 0) ∧
    (-(1/5 : ℝ)) = 0 - k * C0.TAU :=
  (c4_amended 0 1 1 0 (-(1/5)) c4_instance).2 (by norm_num)

/-- The part_003 objective is strictly positive at `x = 1` with `a = 10`,
`deviation = 0`, `v = 1`, `delta = 0`, `tau = 3/5`: the `(x - a)/tau²` term
contributes `25` while the exponential term stays above `-1/2`. -/
lemma g2_f_pos_example : 0 < Glicko2.f 1 10 0 1 0 (3/5) := by
  unfold Glicko2.f
  set t := Real.exp 1 with htdef
  have htpos : 0 < t := Real.exp_pos _
  have h1t : (0 : ℝ) < 1 + t := by linarith
  have hfrac : t * (0 * 0 - 0 * 0 - 1 - t) / (2 * (0 * 0 + 1 + t) ^ 2) =
      -(t / (2 * (1 + t))) := by
    have hne : (1 : ℝ) + t ≠ 0 := ne_of_gt h1t
    field_simp
    ring
  have hsecond : ((1 : ℝ) - 10) / ((3/5 : ℝ) * (3/5)) = -25 := by norm_num
  rw [hfrac, hsecond]
  have hlt : t / (2 * (1 + t)) < 1 / 2 := by
    rw [div_lt_iff₀ (by linarith)]
    linarith
  linarith

/-- C5 counterexample: at the solver state `A = 0`, `B = 2`, `f_A = 2`,
`f_B = -2` with objective parameters `a = 10`, `deviation = 0`, `v = 1`,
`delta = 0`, `tau = 3/5`, the candidate is `C = 1` and `f(C) > 0`, so `f(C)`
and `f(B)` have opposite sign: the claim's Illinois step replaces the
retained endpoint `A` by `B = 2`, but the part_003 loop body instead sets
`A = C = 1` (and never halves a retained value). -/
theorem c5_counterexample :
    Glicko2.rfStep (fun x => Glicko2.f x 10 0 1 0 (3/5)) ⟨0, 2, 2, -2⟩ ≠
      illinoisSpecStep (fun x => Glicko2.f x 10 0 1 0 (3/5)) ⟨0, 2, 2, -2⟩ := by
  have hC : candidateC ⟨0, 2, 2, -2⟩ = (1 : ℝ) := by
    unfold candidateC
    norm_num
  have hS : specSecant ⟨0, 2, 2, -2⟩ = (1 : ℝ) := by
    unfold specSecant
    norm_num
  have hf : 0 < Glicko2.f 1 10 0 1 0 (3/5) := g2_f_pos_example
  intro h
  unfold Glicko2.rfStep illinoisSpecStep at h
  rw [hC, hS, if_neg (not_lt.mpr (le_of_lt hf)),
    if_pos (mul_neg_of_pos_of_neg hf (by norm_num))] at h
  have hA : (1 : ℝ) = 2 := congrArg RFState.A h
  norm_num at hA

/-- C5 (amended): the part_000 solver iteration is exactly the spec's
Illinois step — its candidate `A + (A-B)·fA/(fB-fA)` is the secant
interpolant of `(A, f(A))` and `(B, f(B))`, the retained endpoint `A` is
replaced normally when `f(C)` and `f(B)` have opposite sign, and the
retained value `fA` is halved when they have the same sign (provided
`f(B) ≠ f(A)`, without which the secant candidate is undefined); the
part_003 solver instead chooses the endpoint to replace by the sign of
`f(C)` alone and never halves a retained value. -/
theorem c5_amended (F : ℝ → ℝ) (s : RFState) (h : s.fB ≠ s.fA) :
    C0.illinoisStep F s = illinoisSpecStep F s := by
  have hd : s.fB - s.fA ≠ 0 := sub_ne_zero.mpr h
  have hC : candidateC s = specSecant s := by
    unfold candidateC specSecant
    field_simp
    ring
  unfold C0.illinoisStep illinoisSpecStep
  rw [hC]

/-- C5 witness: the amended step equality at the concrete state
`(A, B, f_A, f_B) = (0, 2, 2, -2)` with the identity as objective. -/
theorem c5_witness :
    C0.illinoisStep (fun x => x) ⟨0, 2, 2, -2⟩ =
      illinoisSpecStep (fun x => x) ⟨0, 2, 2, -2⟩ :=
  c5_amended (fun x => x) ⟨0, 2, 2, -2⟩ (by norm_num)

/-- A value clamped from above by `if x > c then c else x` never exceeds `c`. -/
lemma if_gt_le (x c : ℝ) : (if x > c then c else x) ≤ c := by
  split_ifs with h
  · exact le_rfl
  · exact le_of_not_lt h

/-- C6 counterexample: the part_003 solver applies no clamp at all.  With
`deviation = 2`, `volatility = 100`, `v = 6`, `delta = sqrt 10010` (and
`tau = 3/5`, `epsilon = 1e-6`), the initial bracket satisfies
`B = log(10000) = A`, the loop body never runs, and the solver returns —
and `update_player_ratings` commits — a volatility of `100 > 2.8`. -/
theorem c6_counterexample :
    Glicko2.GetNewVolatility 2 100 6 (Real.sqrt 10010) (3/5) (1/1000000) 100 ∧
      ¬ (100 : ℝ) ≤ 2.8 := by
  constructor
  · have hsq : Real.sqrt 10010 * Real.sqrt 10010 = 10010 :=
      Real.mul_self_sqrt (by norm_num)
    have hB : Real.log (Real.sqrt 10010 * Real.sqrt 10010 - 2 * 2 - 6) =
        Real.log 10000 := by rw [hsq]; norm_num
    have hA : Real.log 10000 = 2 * Real.log 100 := by
      rw [show (10000 : ℝ) = 100 ^ 2 by norm_num, Real.log_pow]
      push_cast
      ring
    refine ⟨Real.log 10000, Or.inr ⟨?_, hB.symm⟩, ?_⟩
    · rw [hB, hA]
      have : 0 < Real.log 100 := Real.log_pos (by norm_num)
      linarith
    · have hdone :
          Glicko2.Iterate
            (fun x => Glicko2.f x (2 * Real.log 100) 2 6 (Real.sqrt 10010) (3/5))
            (1/1000000)
            ⟨2 * Real.log 100, Real.log 10000,
              Glicko2.f (2 * Real.log 100) (2 * Real.log 100) 2 6 (Real.sqrt 10010) (3/5),
              Glicko2.f (Real.log 10000) (2 * Real.log 100) 2 6 (Real.sqrt 10010) (3/5)⟩
            (Real.exp (2 * Real.log 100 / 2)) := by
        refine Glicko2.Iterate.done _ ?_
        show ¬ |Real.log 10000 - 2 * Real.log 100| > 1/1000000
        rw [hA, sub_self, abs_zero]
        norm_num
      have hres : Real.exp (2 * Real.log 100 / 2) = 100 := by
        rw [show 2 * Real.log 100 / 2 = Real.log 100 by ring]
        exact Real.exp_log (by norm_num)
      rw [hres] at hdone
      exact hdone
  · norm_num

/-- C6 (amended): the clamps exist only in the part_000 variant, and even
there only on the paths that commit.  Whenever the part_000 commit phase
completes for a player (returns `some`), the committed volatility never
exceeds `2.8`, the committed internal-scale new deviation never exceeds
`2.9`, the staged `new_rd` is the clamped deviation rescaled, and the
committed record is exactly the log-independent clamped record — the one
always produced when both extreme-case log writes succeed.  When an
out-of-range event fires and `extreme_cases.log` cannot be opened,
`glicko2_update` instead returns early: nothing is clamped or committed for
that player.  The part_003 variant applies no clamp at all, so it can
commit volatilities above the ceiling (see the counterexample). -/
theorem c6_amended (log1Ok log2Ok : Bool) (mu phi v delta_sum A : ℝ) (out : C0.CommitOut)
    (h : C0.commit log1Ok log2Ok mu phi v delta_sum A = some out) :
    out.volatility ≤ 2.8 ∧ out.phiInternal ≤ 2.9 ∧
      out.new_rd = out.phiInternal * 173.7178 ∧
      C0.commit true true mu phi v delta_sum A = some out := by
  have htrue : C0.commit true true mu phi v delta_sum A =
      some ⟨C0.clamped_volatility A, C0.clamped_phi phi v A,
        (mu + C0.clamped_phi phi v A ^ 2 * delta_sum) * 173.7178 + 1500.0,
        C0.clamped_phi phi v A * 173.7178⟩ := by
    unfold C0.commit
    rw [if_neg (by simp), if_neg (by simp)]
  unfold C0.commit at h
  split_ifs at h
  have hout := Option.some.inj h
  refine ⟨?_, ?_, ?_, ?_⟩
  · rw [← hout]
    unfold C0.clamped_volatility
    exact if_gt_le _ _
  · rw [← hout]
    unfold C0.clamped_phi
    exact if_gt_le _ _
  · rw [← hout]
  · rw [htrue, ← hout]

/-- C6 witness: the amended commit characterization at `mu = 0`, `phi = 1`,
`v = 1`, `delta_sum = 0`, `A = 0` with both log writes succeeding, where the
commit phase returns the clamped record. -/
theorem c6_witness :
    C0.clamped_volatility 0 ≤ 2.8 ∧ C0.clamped_phi 1 1 0 ≤ 2.9 ∧
      C0.clamped_phi 1 1 0 * 173.7178 = C0.clamped_phi 1 1 0 * 173.7178 ∧
      C0.commit true true 0 1 1 0 0 =
        some ⟨C0.clamped_volatility 0, C0.clamped_phi 1 1 0,
          ((0 : ℝ) + C0.clamped_phi 1 1 0 ^ 2 * 0) * 173.7178 + 1500.0,
          C0.clamped_phi 1 1 0 * 173.7178⟩ :=
  c6_amended true true 0 1 1 0 0
    ⟨C0.clamped_volatility 0, C0.clamped_phi 1 1 0,
      ((0 : ℝ) + C0.clamped_phi 1 1 0 ^ 2 * 0) * 173.7178 + 1500.0,
      C0.clamped_phi 1 1 0 * 173.7178⟩
    (by unfold C0.commit; rw [if_neg (by simp), if_neg (by simp)])

/-- Keys not in the iterated id list are untouched by an in-place keyed
update loop. -/
lemma foldUpd_preserve {α : Type} (F : Option α → α) (ids : List Int) :
    ∀ (m : Int → Option α) (pid : Int), pid ∉ ids → foldUpd F m ids pid = m pid := by
  induction ids with
  | nil => intro m pid _; rfl
  | cons hd tl ih =>
      intro m pid h
      unfold foldUpd at ih ⊢
      rw [List.foldl_cons, ih _ pid (fun ht => h (List.mem_cons_of_mem hd ht))]
      unfold mset
      rw [if_neg (fun he => h (by rw [he]; exact List.mem_cons_self hd tl))]

/-- For a duplicate-free id list, an in-place keyed update loop maps each
listed key to the update of its original value: later iterations touch other
keys only. -/
lemma foldUpd_eq_of_mem {α : Type} (F : Option α → α) (ids : List Int) :
    ∀ (m : Int → Option α) (pid : Int), ids.Nodup → pid ∈ ids →
      foldUpd F m ids pid = some (F (m pid)) := by
  induction ids with
  | nil => intro m pid _ h; cases h
  | cons hd tl ih =>
      intro m pid hnd hmem
      unfold foldUpd
      rw [List.foldl_cons]
      rcases List.mem_cons.mp hmem with rfl | htl
      · have hnotin : pid ∉ tl := (List.nodup_cons.mp hnd).1
        have hpres := foldUpd_preserve F tl (mset m pid (F (m pid))) pid hnotin
        unfold foldUpd at hpres
        rw [hpres]
        unfold mset
        rw [if_pos rfl]
      · have hne : pid ≠ hd := fun he => (List.nodup_cons.mp hnd).1 (he ▸ htl)
        have := ih (mset m hd (F (m hd))) pid (List.nodup_cons.mp hnd).2 htl
        unfold foldUpd at this
        rw [this]
        unfold mset
        rw [if_neg hne]

/-- C7 counterexample: a player with display deviation `173.7178` (internal
`phi = 1`), volatility `1`, `last_month_played = 4`, decayed at `month = 6`
(two periods after the last one played), receives deviation `sqrt 2` — the
code multiplies the squared volatility by `month - last_month_played - 1 = 1`
— whereas the claim's `sqrt(phi² + elapsed_periods·sigma²)` with
`elapsed_periods = 6 - 4 = 2` is `sqrt 3`. -/
theorem c7_counterexample :
    (Glicko2.decayPlayer ⟨1500, 173.7178, 1, 4⟩ 6).deviation = Real.sqrt 2 ∧
      (Glicko2.decayPlayer ⟨1500, 173.7178, 1, 4⟩ 6).deviation ≠ Real.sqrt 3 := by
  have h : (Glicko2.decayPlayer ⟨1500, 173.7178, 1, 4⟩ 6).deviation = Real.sqrt 2 := by
    unfold Glicko2.decayPlayer
    norm_num
  refine ⟨h, ?_⟩
  rw [h]
  intro he
  have h2 : Real.sqrt 2 ^ 2 = 2 := Real.sq_sqrt (by norm_num)
  have h3 : Real.sqrt 3 ^ 2 = 3 := Real.sq_sqrt (by norm_num)
  rw [he, h3] at h2
  norm_num at h2

/-- C7 (amended): at the start of a period, each player appearing in the
period's game index has its stored rating rescaled and its deviation set to
`sqrt((deviation/173.7178)² + (month − last_month_played − 1)·sigma²)` — the
elapsed factor is one less than the number of periods since
`last_month_played` — and `last_month_played` is then set to the current
period; the part_002 variant instead sets deviation to
`sqrt(deviation² + c²)` with a constant `c` independent of elapsed time. -/
theorem c7_amended (m : Int → Option Glicko2.Player) (m2 : Int → Option Glicko.Player)
    (ids : List Int) (month pid : Int) (p : Glicko2.Player) (p2 : Glicko.Player) (c : ℝ)
    (hnd : ids.Nodup) (hmem : pid ∈ ids) (hp : m pid = some p) (hp2 : m2 pid = some p2) :
    Glicko2.update_player_ratings_and_deviations m ids month pid =
      some ⟨(p.rating - 1500.0) / 173.7178,
        Real.sqrt ((p.deviation / 173.7178) ^ 2 +
          ((month : ℝ) - (p.last_month_played : ℝ) - 1) * p.volatility * p.volatility),
        p.volatility, month⟩ ∧
    Glicko.update_player_deviations c m2 ids month pid =
      some ⟨p2.rating, Real.sqrt (p2.deviation * p2.deviation + c * c), month⟩ := by
  constructor
  · have := foldUpd_eq_of_mem
      (fun o => Glicko2.decayPlayer (o.getD Glicko2.defaultPlayer) month) ids m pid hnd hmem
    unfold Glicko2.update_player_ratings_and_deviations
    rw [this, hp]
    rfl
  · have := foldUpd_eq_of_mem
      (fun o => Glicko.decayPlayer c (o.getD Glicko.defaultPlayer) month) ids m2 pid hnd hmem
    unfold Glicko.update_player_deviations
    rw [this, hp2]
    rfl

/-- C7 witness: the amended decay characterization at a concrete one-player
registry, `month = 6`, `last_month_played = 0`. -/
theorem c7_witness :
    Glicko2.update_player_ratings_and_deviations
        (fun i => if i = 1 then some ⟨1500, 350, 0.06, 0⟩ else none) [1] 6 1 =
      some ⟨(1500 - 1500.0) / 173.7178,
        Real.sqrt ((350 / 173.7178) ^ 2 + (((6 : Int) : ℝ) - ((0 : Int) : ℝ) - 1) * 0.06 * 0.06),
        0.06, 6⟩ ∧
    Glicko.update_player_deviations 63
        (fun i => if i = 1 then some ⟨1500, 350, 0⟩ else none) [1] 6 1 =
      some ⟨1500, Real.sqrt (350 * 350 + 63 * 63), 6⟩ :=
  c7_amended (fun i => if i = 1 then some ⟨1500, 350, 0.06, 0⟩ else none)
    (fun i => if i = 1 then some ⟨1500, 350, 0⟩ else none) [1] 6 1
    ⟨1500, 350, 0.06, 0⟩ ⟨1500, 350, 0⟩ 63
    (by simp) (by simp) (by simp) (by simp)

/-- The part_003 accumulation loop gives equal results for any two
registries, from any accumulator: the looked-up iterator is dead. -/
lemma loop_free (entries : List (Int × ℝ)) :
    ∀ (m m' : Int → Option Glicko2.Player) (sd rating : ℝ) (acc : ℝ × ℝ × ℝ),
      Glicko2.aggregateLoop m sd rating acc entries =
        Glicko2.aggregateLoop m' sd rating acc entries := by
  induction entries with
  | nil => intro m m' sd rating acc; rfl
  | cons e rest ih =>
      intro m m' sd rating acc
      rw [Glicko2.aggregateLoop, Glicko2.aggregateLoop]
      exact ih m m' sd rating _

/-- C2: the part_003 per-game accumulation is independent of the registry.
The code performs `players.find(opponent_id)` and then never reads the
result, so the opponent's stored rating and deviation are never used: the
configured defaults are substituted for every opponent, present or absent.
Two registries that differ arbitrarily (e.g. one storing the opponent with
rating 2000 and deviation 100, one not storing it at all) yield identical
sums, contradicting the claim that a present opponent's stored pre-period
values are the values used. -/
theorem c2_theorem (m m' : Int → Option Glicko2.Player) (sd rating : ℝ)
    (entries : List (Int × ℝ)) :
    Glicko2.aggregate m sd rating entries = Glicko2.aggregate m' sd rating entries := by
  unfold Glicko2.aggregate
  induction entries generalizing m m' with
  | nil => rfl
  | cons e rest ih =>
      rw [Glicko2.aggregateLoop, Glicko2.aggregateLoop]
      exact loop_free rest m m' sd rating _

/-- `addGame` preserves non-emptiness of every per-key list: it only appends
to an existing list or creates a one-element list. -/
lemma addGame_nonempty (m : List (Int × List (Int × ℝ))) (k : Int) (e : Int × ℝ)
    (h : ∀ q ∈ m, q.2 ≠ []) : ∀ q ∈ addGame m k e, q.2 ≠ [] := by
  induction m with
  | nil =>
      intro q hq
      rw [addGame] at hq
      rcases List.mem_singleton.mp hq with rfl
      simp
  | cons hd tl ih =>
      obtain ⟨k', l⟩ := hd
      intro q hq
      rw [addGame] at hq
      split_ifs at hq with hk
      · rcases List.mem_cons.mp hq with rfl | htl
        · simp
        · exact h q (List.mem_cons_of_mem _ htl)
      · rcases List.mem_cons.mp hq with rfl | htl
        · exact h (k', l) (List.mem_cons_self _ _)
        · exact ih (fun r hr => h r (List.mem_cons_of_mem _ hr)) q htl

/-- The game-index fold preserves non-emptiness of every per-key list. -/
lemma gpg_loop_nonempty (games : List (Int × Int × ℝ)) :
    ∀ (init : List (Int × List (Int × ℝ))), (∀ q ∈ init, q.2 ≠ []) →
      ∀ q ∈ games.foldl
        (fun m rec => addGame (addGame m rec.1 (rec.2.1, rec.2.2)) rec.2.1 (rec.1, 1 - rec.2.2))
        init, q.2 ≠ [] := by
  induction games with
  | nil => exact fun init h => h
  | cons rec tl ih =>
      intro init hinv
      rw [List.foldl_cons]
      exact ih _ (addGame_nonempty _ _ _ (addGame_nonempty _ _ _ hinv))

/-- Every key of the per-player game index carries a non-empty entry list. -/
lemma get_player_games_nonempty (games : List (Int × Int × ℝ)) :
    ∀ q ∈ get_player_games games, q.2 ≠ [] := by
  unfold get_player_games
  exact gpg_loop_nonempty games [] (by intro q hq; cases hq)

/-- The per-entry variance summand of part_003 is strictly positive for
every configured starting deviation and every player rating: `g > 0` and
the expected score lies strictly between 0 and 1. -/
lemma vterm_pos (sd rating : ℝ) : 0 < Glicko2.vterm sd rating := by
  unfold Glicko2.vterm
  have hs : (0 : ℝ) < Real.sqrt (1 + 3 * (sd / 173.7178 / Real.pi) ^ 2) :=
    Real.sqrt_pos.mpr (by positivity)
  have hg : (0 : ℝ) < 1 / Real.sqrt (1 + 3 * (sd / 173.7178 / Real.pi) ^ 2) := by positivity
  set z := -(1 / Real.sqrt (1 + 3 * (sd / 173.7178 / Real.pi) ^ 2)) *
    (rating - 1500.0) * 173.7178 / 400 with hz
  have he : 0 < Real.exp z := Real.exp_pos z
  have hd : (0 : ℝ) < 1 + Real.exp z := by linarith
  have hE : 0 < 1 / (1 + Real.exp z) := by positivity
  have hE1 : 1 / (1 + Real.exp z) < 1 := by
    rw [div_lt_one hd]
    linarith
  have h1E : 0 < 1 - 1 / (1 + Real.exp z) := by linarith
  positivity

/-- The first component of the part_003 accumulation loop over an entry list
is the initial `v_sum` plus one strictly positive summand per entry. -/
lemma aggregateLoop_fst (m : Int → Option Glicko2.Player) (sd rating : ℝ) :
    ∀ (entries : List (Int × ℝ)) (acc : ℝ × ℝ × ℝ),
      (Glicko2.aggregateLoop m sd rating acc entries).1 =
        acc.1 + entries.length * Glicko2.vterm sd rating := by
  intro entries
  induction entries with
  | nil => intro acc; rw [Glicko2.aggregateLoop]; simp
  | cons e rest ih =>
      intro acc
      rw [Glicko2.aggregateLoop, ih]
      show acc.1 + Glicko2.vterm sd rating + rest.length * Glicko2.vterm sd rating =
        acc.1 + ((rest.length + 1 : ℕ) : ℝ) * Glicko2.vterm sd rating
      push_cast
      ring

/-- C10: every key of the per-player game index built by `get_player_games`
carries a non-empty game list, and for every indexed player the accumulated
variance `v_sum` is a sum of one strictly positive summand `g²·E·(1−E)` per
entry, hence strictly positive — the division `v = 1/v_sum` never divides
by zero (over exact real arithmetic). -/
theorem c10_theorem (games : List (Int × Int × ℝ)) (pid : Int) (l : List (Int × ℝ))
    (m : Int → Option Glicko2.Player) (sd rating : ℝ)
    (hmem : (pid, l) ∈ get_player_games games) :
    l ≠ [] ∧ 0 < (Glicko2.aggregate m sd rating l).1 := by
  have hne : l ≠ [] := get_player_games_nonempty games (pid, l) hmem
  refine ⟨hne, ?_⟩
  unfold Glicko2.aggregate
  rw [aggregateLoop_fst]
  have hlen : 0 < l.length := List.length_pos.mpr hne
  have hlenR : (0 : ℝ) < (l.length : ℝ) := by exact_mod_cast hlen
  have ht := vterm_pos sd rating
  have := mul_pos hlenR ht
  simpa using this

/-- C10 witness: the game set `[(1, 2, 1.0)]` indexes player 1 with the
non-empty list `[(2, 1.0)]`, and its accumulated `v_sum` is positive. -/
theorem c10_witness :
    ([(2, (1 : ℝ))] : List (Int × ℝ)) ≠ [] ∧
      0 < (Glicko2.aggregate (fun _ => none) 350 1500 [(2, (1 : ℝ))]).1 :=
  c10_theorem [(1, 2, 1)] 1 [(2, (1 : ℝ))] (fun _ => none) 350 1500
    (by rw [get_player_games, List.foldl_cons, List.foldl_nil, addGame, addGame, addGame]
        norm_num)

/-- The in-place commit of one part_003 player update touches no other key. -/
lemma commitPlayer_ne (m : Int → Option Glicko2.Player) (pid oid : Int) (v g_sum nv : ℝ)
    (h : oid ≠ pid) : Glicko2.commitPlayer m pid v g_sum nv oid = m oid := by
  show (if oid = pid then _ else m oid) = m oid
  rw [if_neg h]

/-- A player id outside the iterated id list is untouched by the part_003
player loop. -/
lemma updatePlayers_frame {sd tau eps : ℝ} {idx : List (Int × List (Int × ℝ))}
    {m : Int → Option Glicko2.Player} {ids : List Int} {loss : ℝ}
    {mFin : Int → Option Glicko2.Player} {lossFin : ℝ}
    (h : Glicko2.UpdatePlayers sd tau eps idx m ids loss mFin lossFin) :
    ∀ pid : Int, pid ∉ ids → mFin pid = m pid := by
  induction h with
  | nil m loss => intro pid _; rfl
  | cons m pid' rest loss nv mFin lossFin hsolve hrec ih =>
      intro pid hpid
      have h1 : pid ∉ rest := fun ht => hpid (List.mem_cons_of_mem _ ht)
      have h2 : pid ≠ pid' := fun he => hpid (by rw [he]; exact List.mem_cons_self _ _)
      rw [ih pid h1, commitPlayer_ne _ _ _ _ _ _ h2]


/-- A part_003 period update over an empty game set leaves the registry
untouched and returns loss 0. -/
lemma c8run : Glicko2.UpdateRatings 350 (3/5) (1/1000000) c8reg [] 5 c8reg 0 := by
  refine ⟨0, Glicko2.UpdatePlayers.nil c8reg 0, ?_⟩
  simp

/-- C8 counterexample: player 1 is present in the registry with
`last_month_played = 0`, the period is `month = 5` (five elapsed periods),
and the period's game set is empty; the update commits the registry
unchanged — deviation stays exactly 350 — whereas the claim requires the
deviation of a registered player absent from the games to strictly
increase whenever elapsed periods are nonzero. -/
theorem c8_counterexample :
    Glicko2.UpdateRatings 350 (3/5) (1/1000000) c8reg [] 5 c8reg 0 ∧
      c8reg 1 = some ⟨1500, 350, 0.06, 0⟩ ∧ ¬ (350 : ℝ) < 350 :=
  ⟨c8run, by simp [c8reg], by norm_num⟩

/-- C8 (amended): a player absent from the period's game records is not
processed at all by the part_003 update: rating, deviation, volatility and
`last_month_played` are all left unchanged (no decay is applied either; the
elapsed periods accumulate in `month - last_month_played` for the next
period in which the player does play). -/
theorem c8_amended (sd tau eps : ℝ) (m mFin : Int → Option Glicko2.Player)
    (games : List (Int × Int × ℝ)) (month : Int) (avg : ℝ) (pid : Int)
    (h : Glicko2.UpdateRatings sd tau eps m games month mFin avg)
    (hpid : pid ∉ get_player_ids (get_player_games games)) :
    mFin pid = m pid := by
  obtain ⟨lossSum, hup, -⟩ := h
  rw [updatePlayers_frame hup pid hpid]
  unfold Glicko2.update_player_ratings_and_deviations
  exact foldUpd_preserve _ _ m pid hpid

/-- C8 witness: the frame property instantiated at the concrete no-game run
of the counterexample scenario. -/
theorem c8_witness : c8reg 1 = c8reg 1 :=
  c8_amended 350 (3/5) (1/1000000) c8reg c8reg [] 5 0 1 c8run
    (by simp [get_player_games, get_player_ids])

/-- The loss component threaded through the part_002 player loop is never
modified: no statement of the loop body adds to `total_loss`. -/
lemma update_player_ratings_snd (sd : ℝ) (idx : List (Int × List (Int × ℝ)))
    (ids : List Int) :
    ∀ (m : Int → Option Glicko.Player) (x : ℝ),
      (ids.foldl (fun acc pid => (Glicko.update_one sd idx acc.1 pid, acc.2)) (m, x)).2 = x := by
  induction ids with
  | nil => intro m x; rfl
  | cons hd tl ih =>
      intro m x
      rw [List.foldl_cons]
      exact ih _ x


/-- C9 counterexample: for the single game `(1, 2, 0.5)` between two equally
rated players, every per-entry expected score is exactly `1/2`, each of the
two directed entries carries binary cross-entropy `log 2`, and the claimed
average — summed per-entry loss over twice the number of games — equals
`log 2 ≠ 0`; yet part_002 `update_player_ratings` returns `0`, because
`total_loss` is never accumulated inside its loop. -/
theorem c9_counterexample :
    Glicko.average_loss 350 (get_player_games [(1, 2, 0.5)]) c9reg
        (get_player_ids (get_player_games [(1, 2, 0.5)])) = 0 ∧
      Glicko.E (Glicko.g 350) 1500 1500 = 1 / 2 ∧
      (Glicko.binary_cross_entropy (1 / 2) 0.5 +
          Glicko.binary_cross_entropy (1 / 2) (1 - 0.5)) / (2 * 1) = Real.log 2 ∧
      Real.log 2 ≠ 0 := by
  have hE : Glicko.E (Glicko.g 350) 1500 1500 = 1 / 2 := by
    unfold Glicko.E
    rw [sub_self, mul_zero, zero_div, Real.exp_zero]
    norm_num
  have hbce : Glicko.binary_cross_entropy (1 / 2) 0.5 = Real.log 2 := by
    unfold Glicko.binary_cross_entropy
    have hmin : min (1 / 2 : ℝ) (1 - 1e-15) = 1 / 2 := min_eq_left (by norm_num)
    have hmax : max (1 / 2 : ℝ) (1e-15) = 1 / 2 := max_eq_left (by norm_num)
    rw [hmin, hmax, show (1 : ℝ) - 1 / 2 = 1 / 2 by norm_num,
      show Real.log (1 / 2 : ℝ) = -Real.log 2 by rw [one_div, Real.log_inv]]
    norm_num
    ring
  refine ⟨?_, hE, ?_, ne_of_gt (Real.log_pos (by norm_num))⟩
  · unfold Glicko.average_loss Glicko.update_player_ratings
    rw [update_player_ratings_snd]
    norm_num
  · rw [show (1 : ℝ) - 0.5 = 0.5 by norm_num, hbce]
    norm_num

/-- C9 (amended): the part_002 period update always reports an average loss
of `0` — the per-entry binary cross-entropy is computed by no statement of
its player loop and `total_loss` keeps its initial value — and the part_003
variant divides the summed per-entry loss by twice the number of players
that played, not twice the number of games. -/
theorem c9_amended (sd : ℝ) (idx : List (Int × List (Int × ℝ)))
    (m : Int → Option Glicko.Player) (ids : List Int) :
    Glicko.average_loss sd idx m ids = 0 := by
  unfold Glicko.average_loss Glicko.update_player_ratings
  rw [update_player_ratings_snd]
  norm_num

/-- Reading a registry at the key just written. -/
lemma mset_self {α : Type} (m : Int → Option α) (k : Int) (v : α) :
    mset m k v k = some v := by
  unfold mset
  rw [if_pos rfl]

/-- Reading a registry at a key other than the one written. -/
lemma mset_ne {α : Type} (m : Int → Option α) (k j : Int) (v : α) (h : j ≠ k) :
    mset m k v j = m j := by
  unfold mset
  rw [if_neg h]

/-- The part_002 per-player update writes only its own player's slot. -/
lemma update_one_ne (sd : ℝ) (idx : List (Int × List (Int × ℝ)))
    (m : Int → Option Glicko.Player) (pid oid : Int) (h : oid ≠ pid) :
    Glicko.update_one sd idx m pid oid = m oid := by
  show (if oid = pid then _ else m oid) = m oid
  rw [if_neg h]

/-- Evaluation of one part_002 player update in the one-game, equal-ratings
case: for a player whose single entry is a draw `(oid, 1/2)` against an
opponent stored with the same rating, the expected score is exactly `1/2`,
the accumulated `sum` is `0` — so the rating is unchanged — and the
committed deviation is `sqrt(1/deviation² + 16/g(opponent_deviation)⁴)`.
The opponent's stored (current, not pre-period) deviation enters through
`g`. -/
lemma update_one_single (sd : ℝ) (idx : List (Int × List (Int × ℝ)))
    (m : Int → Option Glicko.Player) (pid oid : Int) (p q : Glicko.Player)
    (hm : m pid = some p) (ho : m oid = some q)
    (hidx : lookupGames idx pid = [(oid, 1/2)]) (hrat : p.rating = q.rating) :
    Glicko.update_one sd idx m pid = mset m pid
      ⟨p.rating, Real.sqrt (1 / p.deviation ^ 2 + 16 / Glicko.g q.deviation ^ 4),
        p.last_month_played⟩ := by
  have hEq : Glicko.E (Glicko.g q.deviation) p.rating q.rating = 1 / 2 := by
    unfold Glicko.E
    rw [hrat, sub_self, mul_zero, zero_div, Real.exp_zero]
    norm_num
  unfold Glicko.update_one
  rw [hm, hidx]
  simp only [Option.getD_some, List.foldl_cons, List.foldl_nil, Glicko.opponentOf, ho, hEq]
  refine congrArg (mset m pid) ?_
  simp only [Glicko.Player.mk.injEq]
  refine ⟨by norm_num, ?_, trivial⟩
  have h1 : (0 : ℝ) + Glicko.g q.deviation ^ 2 * (1 / 2) * (1 - 1 / 2) =
      Glicko.g q.deviation ^ 2 / 4 := by ring
  rw [h1]
  have h2 : (Glicko.g q.deviation ^ 2 / 4 : ℝ) ^ 2 = Glicko.g q.deviation ^ 4 / 16 := by
    ring
  rw [h2, one_div_div]

/-- `Q = log(10)/400` is positive. -/
lemma Q_pos : 0 < Glicko.Q := by
  unfold Glicko.Q
  have : 0 < Real.log 10 := Real.log_pos (by norm_num)
  linarith

/-- The part_002 impact weight `g` is strictly positive. -/
lemma g_pos (x : ℝ) : 0 < Glicko.g x := by
  unfold Glicko.g
  have h : (0 : ℝ) < 1 + 3 * Glicko.Q ^ 2 * x ^ 2 / (Real.pi * Real.pi) := by
    have hp : (0 : ℝ) < Real.pi * Real.pi := by positivity
    positivity
  have := Real.sqrt_pos.mpr h
  positivity

/-- The part_002 impact weight `g` strictly decreases in the opponent's
deviation (on nonnegative deviations). -/
lemma g_strict_anti (a b : ℝ) (ha : 0 ≤ a) (hab : a < b) : Glicko.g b < Glicko.g a := by
  unfold Glicko.g
  have hQ := Q_pos
  have hpi : (0 : ℝ) < Real.pi * Real.pi := by positivity
  have hsq : a ^ 2 < b ^ 2 := by nlinarith
  have harg : 1 + 3 * Glicko.Q ^ 2 * a ^ 2 / (Real.pi * Real.pi) <
      1 + 3 * Glicko.Q ^ 2 * b ^ 2 / (Real.pi * Real.pi) := by
    have h3 : (0 : ℝ) < 3 * Glicko.Q ^ 2 := by positivity
    have := div_lt_div_of_pos_right (by nlinarith : 3 * Glicko.Q ^ 2 * a ^ 2 <
      3 * Glicko.Q ^ 2 * b ^ 2) hpi
    linarith
  have hpos : (0 : ℝ) < 1 + 3 * Glicko.Q ^ 2 * a ^ 2 / (Real.pi * Real.pi) := by positivity
  have hsqrt : Real.sqrt (1 + 3 * Glicko.Q ^ 2 * a ^ 2 / (Real.pi * Real.pi)) <
      Real.sqrt (1 + 3 * Glicko.Q ^ 2 * b ^ 2 / (Real.pi * Real.pi)) :=
    Real.sqrt_lt_sqrt (le_of_lt hpos) harg
  have hsa : (0 : ℝ) < Real.sqrt (1 + 3 * Glicko.Q ^ 2 * a ^ 2 / (Real.pi * Real.pi)) :=
    Real.sqrt_pos.mpr hpos
  exact one_div_lt_one_div_of_lt hsa hsqrt


lemma c1idx_eval : c1idx = [(1, [(2, 0.5)]), (2, [(1, 1 - 0.5)])] := by
  unfold c1idx get_player_games
  rw [List.foldl_cons, List.foldl_nil, addGame, addGame, addGame]
  norm_num

lemma c1idx_lookup1 : lookupGames c1idx 1 = [(2, 1 / 2)] := by
  rw [c1idx_eval, lookupGames]
  norm_num

lemma c1idx_lookup2 : lookupGames c1idx 2 = [(1, 1 / 2)] := by
  rw [c1idx_eval, lookupGames, lookupGames]
  norm_num

lemma c1reg_1 : c1reg 1 = some ⟨1500, 1, 0⟩ := by
  unfold c1reg
  norm_num

lemma c1reg_2 : c1reg 2 = some ⟨1500, 1, 0⟩ := by
  unfold c1reg
  norm_num

/-- Processing order `[1, 2]`: player 2's computation reads player 1's
already-updated in-place deviation `sqrt(1/1² + 16/g(1)⁴)`. -/
lemma c1_run12 :
    (Glicko.update_player_ratings 350 c1idx c1reg [1, 2]).1 2 =
      some ⟨1500, Real.sqrt (1 / (1 : ℝ) ^ 2 +
        16 / Glicko.g (Real.sqrt (1 / (1 : ℝ) ^ 2 + 16 / Glicko.g 1 ^ 4)) ^ 4), 0⟩ := by
  have h1 : Glicko.update_one 350 c1idx c1reg 1 = mset c1reg 1
      ⟨1500, Real.sqrt (1 / (1 : ℝ) ^ 2 + 16 / Glicko.g 1 ^ 4), 0⟩ :=
    update_one_single 350 c1idx c1reg 1 2 ⟨1500, 1, 0⟩ ⟨1500, 1, 0⟩
      c1reg_1 c1reg_2 c1idx_lookup1 rfl
  have hm2 : mset c1reg 1 ⟨1500, Real.sqrt (1 / (1 : ℝ) ^ 2 + 16 / Glicko.g 1 ^ 4), 0⟩ 2 =
      some ⟨1500, 1, 0⟩ := by
    rw [mset_ne _ _ _ _ (by norm_num), c1reg_2]
  have hm1 : mset c1reg 1 ⟨1500, Real.sqrt (1 / (1 : ℝ) ^ 2 + 16 / Glicko.g 1 ^ 4), 0⟩ 1 =
      some ⟨1500, Real.sqrt (1 / (1 : ℝ) ^ 2 + 16 / Glicko.g 1 ^ 4), 0⟩ :=
    mset_self _ _ _
  have h2 : Glicko.update_one 350 c1idx
      (mset c1reg 1 ⟨1500, Real.sqrt (1 / (1 : ℝ) ^ 2 + 16 / Glicko.g 1 ^ 4), 0⟩) 2 =
      mset (mset c1reg 1 ⟨1500, Real.sqrt (1 / (1 : ℝ) ^ 2 + 16 / Glicko.g 1 ^ 4), 0⟩) 2
        ⟨1500, Real.sqrt (1 / (1 : ℝ) ^ 2 +
          16 / Glicko.g (Real.sqrt (1 / (1 : ℝ) ^ 2 + 16 / Glicko.g 1 ^ 4)) ^ 4), 0⟩ :=
    update_one_single 350 c1idx _ 2 1 ⟨1500, 1, 0⟩
      ⟨1500, Real.sqrt (1 / (1 : ℝ) ^ 2 + 16 / Glicko.g 1 ^ 4), 0⟩
      hm2 hm1 c1idx_lookup2 rfl
  show (Glicko.update_one 350 c1idx (Glicko.update_one 350 c1idx c1reg 1) 2) 2 = _
  rw [h1, h2, mset_self]

/-- Processing order `[2, 1]`: player 2's computation reads player 1's
original deviation `1`, and player 1's later update does not touch slot 2. -/
lemma c1_run21 :
    (Glicko.update_player_ratings 350 c1idx c1reg [2, 1]).1 2 =
      some ⟨1500, Real.sqrt (1 / (1 : ℝ) ^ 2 + 16 / Glicko.g 1 ^ 4), 0⟩ := by
  have h1 : Glicko.update_one 350 c1idx c1reg 2 = mset c1reg 2
      ⟨1500, Real.sqrt (1 / (1 : ℝ) ^ 2 + 16 / Glicko.g 1 ^ 4), 0⟩ :=
    update_one_single 350 c1idx c1reg 2 1 ⟨1500, 1, 0⟩ ⟨1500, 1, 0⟩
      c1reg_2 c1reg_1 c1idx_lookup2 rfl
  show (Glicko.update_one 350 c1idx (Glicko.update_one 350 c1idx c1reg 2) 1) 2 = _
  rw [update_one_ne _ _ _ _ _ (by norm_num), h1, mset_self]

/-- The deviation committed for player 2 differs between the two orders:
the in-place-updated opponent deviation `sqrt(1/1² + 16/g(1)⁴)` exceeds `1`,
so `g` of it is strictly smaller and the resulting deviation strictly
larger. -/
lemma c1_dev_ne :
    Real.sqrt (1 / (1 : ℝ) ^ 2 +
        16 / Glicko.g (Real.sqrt (1 / (1 : ℝ) ^ 2 + 16 / Glicko.g 1 ^ 4)) ^ 4) ≠
      Real.sqrt (1 / (1 : ℝ) ^ 2 + 16 / Glicko.g 1 ^ 4) := by
  have hg1 : 0 < Glicko.g 1 := g_pos 1
  have hq4 : (0 : ℝ) < 16 / Glicko.g 1 ^ 4 := by positivity
  have hD1 : (1 : ℝ) < Real.sqrt (1 / (1 : ℝ) ^ 2 + 16 / Glicko.g 1 ^ 4) := by
    have h1 : (1 : ℝ) < 1 / (1 : ℝ) ^ 2 + 16 / Glicko.g 1 ^ 4 := by
      rw [show (1 : ℝ) / (1 : ℝ) ^ 2 = 1 by norm_num]
      linarith
    calc (1 : ℝ) = Real.sqrt 1 := Real.sqrt_one.symm
    _ < Real.sqrt (1 / (1 : ℝ) ^ 2 + 16 / Glicko.g 1 ^ 4) :=
        Real.sqrt_lt_sqrt (by norm_num) h1
  have hglt : Glicko.g (Real.sqrt (1 / (1 : ℝ) ^ 2 + 16 / Glicko.g 1 ^ 4)) < Glicko.g 1 :=
    g_strict_anti 1 _ (by norm_num) hD1
  have hgD : 0 < Glicko.g (Real.sqrt (1 / (1 : ℝ) ^ 2 + 16 / Glicko.g 1 ^ 4)) := g_pos _
  have hpow : Glicko.g (Real.sqrt (1 / (1 : ℝ) ^ 2 + 16 / Glicko.g 1 ^ 4)) ^ 4 <
      Glicko.g 1 ^ 4 := by
    have := pow_lt_pow_left₀ hglt (le_of_lt hgD) (by norm_num : (4 : ℕ) ≠ 0)
    simpa using this
  have hpowpos : (0 : ℝ) < Glicko.g (Real.sqrt (1 / (1 : ℝ) ^ 2 + 16 / Glicko.g 1 ^ 4)) ^ 4 :=
    by positivity
  have hdiv : 16 / Glicko.g 1 ^ 4 <
      16 / Glicko.g (Real.sqrt (1 / (1 : ℝ) ^ 2 + 16 / Glicko.g 1 ^ 4)) ^ 4 :=
    div_lt_div_of_pos_left (by norm_num) hpowpos hpow
  have harg : 1 / (1 : ℝ) ^ 2 + 16 / Glicko.g 1 ^ 4 <
      1 / (1 : ℝ) ^ 2 + 16 / Glicko.g (Real.sqrt (1 / (1 : ℝ) ^ 2 + 16 / Glicko.g 1 ^ 4)) ^ 4 :=
    by linarith
  have := Real.sqrt_lt_sqrt (by positivity) harg
  exact ne_of_gt this

/-- C1: the part_002 period update is not order-independent.  With two
players both stored as rating 1500, deviation 1, and the single drawn game
`(1, 2, 0.5)`, running the per-player update loop in order `[1, 2]` commits
a different deviation for player 2 than running it in order `[2, 1]`: the
loop takes `auto &player = players[player_id]` into the live map and writes
rating and deviation in place (part_002 lines 305–306), so the later
player's computation reads the earlier player's in-progress result instead
of the frozen pre-period snapshot. -/
theorem c1_theorem :
    (Glicko.update_player_ratings 350 c1idx c1reg [1, 2]).1 2 ≠
      (Glicko.update_player_ratings 350 c1idx c1reg [2, 1]).1 2 := by
  rw [c1_run12, c1_run21]
  intro h
  have hv := Option.some.inj h
  have hdev := congrArg Glicko.Player.deviation hv
  exact c1_dev_ne hdev
